import Mathlib

/-!
Verification of the osc-buzzer-server core: a shallow embedding of the
serial-line protocol parser and device state store (services/esp32Service.js)
and of the OSC dispatch engine (the OSCService class), together with theorems
settling the specification claims about them.

The device-side code is dynamically typed JavaScript, so device-state fields
are embedded as a JavaScript value type `JVal` (number, NaN, string, boolean,
null/undefined) with the JS truthiness, `||`, and numeric-coercion operations
the source relies on.  Lines are embedded as `List Char`.
-/

namespace OscBuzzer

/-- A JavaScript runtime value as it can appear in a device-state field.
`null` also stands for `undefined`: the source never distinguishes them
(every use is truthiness, strict comparison with `true`, or `|| default`). -/
inductive JVal where
  | num (n : Int)
  | nan
  | str (s : List Char)
  | bool (b : Bool)
  | null
deriving DecidableEq, Repr

/-- JS truthiness: 0, NaN, the empty string, false and null/undefined are falsy. -/
def truthy : JVal → Bool
  | .num n => n != 0
  | .nan => false
  | .str s => !s.isEmpty
  | .bool b => b
  | .null => false

/-- JS `a || b`. -/
def jOr (a b : JVal) : JVal := if truthy a then a else b

/-- Digit run to a natural number. -/
def digitsToNat (s : List Char) : Nat :=
  s.foldl (fun a c => a * 10 + (c.toNat - 48)) 0

/-- JS `Number(string)` restricted to the shapes reachable here: optional
whitespace, optional sign, a plain decimal digit run.  The empty string is 0;
anything else is NaN (`none`).  (Fractions, exponents and hex literals never
reach this coercion in the embedded code paths.) -/
def numberOfString (s : List Char) : Option Int :=
  let t := (s.dropWhile Char.isWhitespace).reverse.dropWhile Char.isWhitespace |>.reverse
  match t with
  | [] => some 0
  | '-' :: r => if r ≠ [] ∧ r.all Char.isDigit then some (-(digitsToNat r : Int)) else none
  | '+' :: r => if r ≠ [] ∧ r.all Char.isDigit then some (digitsToNat r : Int) else none
  | _ => if t.all Char.isDigit then some (digitsToNat t : Int) else none

/-- JS ToNumber on a `JVal`; `none` is NaN. -/
def toNumOpt : JVal → Option Int
  | .num n => some n
  | .nan => none
  | .str s => numberOfString s
  | .bool b => some (if b then 1 else 0)
  | .null => some 0

/-- JS subtraction `a - b` (numeric coercion, NaN-propagating). -/
def jsSub (a b : JVal) : JVal :=
  match toNumOpt a, toNumOpt b with
  | some x, some y => .num (x - y)
  | _, _ => .nan

/-- JS `a + 1` as used for the press counter: string operands concatenate,
numeric operands add, NaN propagates. -/
def jsAdd1 : JVal → JVal
  | .num n => .num (n + 1)
  | .nan => .nan
  | .str s => .str (s ++ ['1'])
  | .bool b => .num ((if b then 1 else 0) + 1)
  | .null => .num 1

/-- JS `parseInt(s)` with radix 10: skip whitespace, optional sign, take the
leading digit run, NaN (`none`) when there is none. -/
def parseIntJS (s : List Char) : Option Int :=
  let t := s.dropWhile Char.isWhitespace
  match t with
  | '-' :: r =>
      let d := r.takeWhile Char.isDigit
      if d = [] then none else some (-(digitsToNat d : Int))
  | '+' :: r =>
      let d := r.takeWhile Char.isDigit
      if d = [] then none else some (digitsToNat d : Int)
  | _ =>
      let d := t.takeWhile Char.isDigit
      if d = [] then none else some (digitsToNat d : Int)

/-- JS `String.prototype.split` with a one-character separator. -/
def splitC (c : Char) : List Char → List (List Char)
  | [] => [[]]
  | x :: xs =>
    let r := splitC c xs
    if x = c then [] :: r else (x :: r.headD []) :: r.tail

/-- JS `String.prototype.includes`. -/
def containsSub (pat : List Char) : List Char → Bool
  | [] => pat.isPrefixOf []
  | c :: rest => pat.isPrefixOf (c :: rest) || containsSub pat rest

/-- One deviceStates entry: the object literals built by `parseDeviceData`,
`handleTriviaModeDevice` and `handleBuzzerPress`.  A field that a given
literal does not set is `null` (JS `undefined`).  Keys written by the
`key=value` loop that are none of these fields are stored on the object but
never read again, so they are not represented. -/
structure DeviceState where
  mac_address : JVal
  last_seen : JVal
  last_online : JVal
  online : JVal
  armed : JVal
  pressed : JVal
  press_count : JVal
  last_press : JVal
  discovery_mode : JVal
deriving DecidableEq, Repr

/-- The `deviceStates` JS `Map`, in insertion order. -/
abbrev Store := List (List Char × DeviceState)

def lookupStore : Store → List Char → Option DeviceState
  | [], _ => none
  | (k, v) :: rest, key => if k = key then some v else lookupStore rest key

/-- JS `Map.prototype.set`: replace in place, else append. -/
def setStore : Store → List Char → DeviceState → Store
  | [], k, v => [(k, v)]
  | (k', v') :: rest, k, v =>
    if k' = k then (k, v) :: rest else (k', v') :: setStore rest k v

/-- Field of `this.deviceStates.get(mac) || {}`. -/
def fieldOr (o : Option DeviceState) (f : DeviceState → JVal) : JVal :=
  match o with
  | some d => f d
  | none => .null

/-- Value coercion of the DEVICE key=value loop:
`value === '1' ? true : value === '0' ? false : value`. -/
def coerceKVVal (v : List Char) : JVal :=
  if v = ['1'] then .bool true else if v = ['0'] then .bool false else .str v

/-- `parts[i].split('=')` destructured to key and value; the pair is applied
only when `key` is truthy (non-empty) and `value` is not undefined. -/
def kvOfPart (part : List Char) : Option (List Char × List Char) :=
  let pieces := splitC '=' part
  match pieces[0]?, pieces[1]? with
  | some k, some v => if k = [] then none else some (k, v)
  | _, _ => none

/-- `params[key] = value` on the params object, for the fields that are read
downstream; any other key is write-only on the object. -/
def applyKV (p : DeviceState) (key : List Char) (v : JVal) : DeviceState :=
  if key = "mac_address".toList then { p with mac_address := v }
  else if key = "last_seen".toList then { p with last_seen := v }
  else if key = "last_online".toList then { p with last_online := v }
  else if key = "online".toList then { p with online := v }
  else if key = "armed".toList then { p with armed := v }
  else if key = "pressed".toList then { p with pressed := v }
  else if key = "press_count".toList then { p with press_count := v }
  else if key = "last_press".toList then { p with last_press := v }
  else if key = "discovery_mode".toList then { p with discovery_mode := v }
  else p

/-- The `for (let i = 1; ...)` key=value loop of `parseDeviceData`. -/
def applyKVs (p : DeviceState) : List (List Char) → DeviceState
  | [] => p
  | part :: rest =>
    match kvOfPart part with
    | some (k, v) => applyKVs (applyKV p k (coerceKVVal v)) rest
    | none => applyKVs p rest

/-- The params object a DEVICE line stores: defaults (offline, history fields
carried over from the existing entry), then the key=value loop, then the
last_online advance/preserve logic. -/
def deviceParams (st : Store) (now : Int) (mac : List Char)
    (kvparts : List (List Char)) : DeviceState :=
  let existing := lookupStore st mac
  let p0 : DeviceState :=
    { mac_address := .str mac
      last_seen := .num now
      last_online := fieldOr existing (·.last_online)
      online := .bool false
      armed := .bool false
      pressed := .bool false
      press_count := jOr (fieldOr existing (·.press_count)) (.num 0)
      last_press := jOr (fieldOr existing (·.last_press)) .null
      discovery_mode := .null }
  let p1 := applyKVs p0 kvparts
  if p1.online = .bool true then { p1 with last_online := .num now }
  else if !truthy p1.last_online && truthy (fieldOr existing (·.last_online)) then
    { p1 with last_online := fieldOr existing (·.last_online) }
  else p1

/-- `ESP32Service.parseDeviceData`: full embedding of the early returns and
the store update.  `parts.length < 2` is the first two match arms; the second
split gives `parts[0].split(':')[1]`, undefined (no second piece) or the
empty identifier being discarded.  `now` is `Date.now()`. -/
def parseDeviceData (st : Store) (now : Int) (line : List Char) : Store :=
  match splitC ',' line with
  | [] => st
  | [_] => st
  | devicePart :: kvparts =>
    if "DEVICE:".toList.isPrefixOf devicePart then
      match splitC ':' devicePart with
      | _ :: mac :: _ =>
        if mac = [] then st else setStore st mac (deviceParams st now mac kvparts)
      | _ => st
    else st

/-- The `buzzer-press` event payload built by `handleBuzzerPress`. -/
structure BuzzerEvent where
  mac_address : List Char
  timestamp : JVal
  received_at : Int
deriving DecidableEq, Repr

/-- `parseInt` result placed into a JS field: a number, or NaN. -/
def pressTimestamp (o : Option Int) : JVal :=
  match o with
  | some n => .num n
  | none => .nan

/-- `ESP32Service.handleBuzzerPress`: always emits the press event; mutates
the device entry only when the full key is already present. -/
def handleBuzzerPress (st : Store) (now : Int) (mac : List Char) (ts : JVal) :
    Store × BuzzerEvent :=
  let ev : BuzzerEvent := ⟨mac, ts, now⟩
  match lookupStore st mac with
  | none => (st, ev)
  | some d =>
    let d' := { d with
      pressed := .bool true
      last_press := ts
      press_count := jsAdd1 (jOr d.press_count (.num 0)) }
    (setStore st mac d', ev)

/-- `ESP32Service.handleTriviaModeDevice`: byte-count-inferred discovery. -/
def handleTriviaModeDevice (st : Store) (now : Int) (mac : List Char) : Store :=
  let existing := lookupStore st mac
  let d : DeviceState :=
    { mac_address := .str mac
      last_seen := .num now
      last_online := .num now
      online := .bool true
      armed := .bool false
      pressed := .bool false
      press_count := jOr (fieldOr existing (·.press_count)) (.num 0)
      last_press := jOr (fieldOr existing (·.last_press)) .null
      discovery_mode := .str "trivia_heartbeat".toList }
  setStore st mac d

/-- The character class of the regex `[A-F0-9:]`. -/
def isMacChar (c : Char) : Bool :=
  c.isDigit || (('A' ≤ c) && (c ≤ 'F')) || c = ':'

/-- The regex match `/from: ([A-F0-9:]\x7b17\x7d)/`: first position where the
literal `from: ` is followed by 17 class characters. -/
def matchBytesFromMac : List Char → Option (List Char)
  | [] => none
  | c :: rest =>
    if "from: ".toList.isPrefixOf (c :: rest) then
      let mac := ((c :: rest).drop 6).take 17
      if mac.length = 17 && mac.all isMacChar then some mac
      else matchBytesFromMac rest
    else matchBytesFromMac rest

/-- The regex match `/Heartbeat from device (\d+)/`. -/
def matchHeartbeatDevice : List Char → Option (List Char)
  | [] => none
  | c :: rest =>
    if "Heartbeat from device ".toList.isPrefixOf (c :: rest) then
      let ds := ((c :: rest).drop 22).takeWhile Char.isDigit
      if ds = [] then matchHeartbeatDevice rest else some ds
    else matchHeartbeatDevice rest

/-- The mutable fields of ESP32Service touched by `handleSerialData`. -/
structure ESPState where
  deviceStates : Store
  lastHeartbeatDevice : JVal
  lastHeartbeatTime : JVal
deriving DecidableEq, Repr

/-- Result of feeding one line: the new service state plus the `buzzer-press`
events emitted. -/
structure SerialResult where
  state : ESPState
  presses : List BuzzerEvent
deriving DecidableEq, Repr

/-- `ESP32Service.handleSerialData`: the branch cascade over a decoded line.
The STATUS, ACK and ERROR branches only emit a socket notification or log and
touch none of the modelled state. -/
def handleSerialData (st : ESPState) (now : Int) (data : List Char) : SerialResult :=
  if "BUZZER:".toList.isPrefixOf data then
    let buzzerData := data.drop 7
    let fields := splitC ',' buzzerData
    let mac := fields.headD []
    let ts : JVal :=
      match fields[1]? with
      | some t => pressTimestamp (parseIntJS t)
      | none => .nan
    let (store', ev) := handleBuzzerPress st.deviceStates now mac ts
    ⟨{ st with deviceStates := store' }, [ev]⟩
  else if "STATUS:".toList.isPrefixOf data then
    ⟨st, []⟩
  else if "DEVICE:".toList.isPrefixOf data then
    ⟨{ st with deviceStates := parseDeviceData st.deviceStates now data }, []⟩
  else if containsSub "Heartbeat from device".toList data then
    match matchHeartbeatDevice data with
    | some d => ⟨{ st with lastHeartbeatDevice := .str d, lastHeartbeatTime := .num now }, []⟩
    | none => ⟨st, []⟩
  else if containsSub "Received".toList data && containsSub "bytes from:".toList data then
    match matchBytesFromMac data with
    | some mac => ⟨{ st with deviceStates := handleTriviaModeDevice st.deviceStates now mac }, []⟩
    | none => ⟨st, []⟩
  else ⟨st, []⟩

/-- 60-second staleness window of `getDevices`. -/
def staleThreshold : Int := 60000

/-- One element of the `getDevices` snapshot. -/
structure DeviceView where
  mac_address : List Char
  online : Bool
  last_seen : JVal
  last_online : JVal
  armed : Bool
  pressed : Bool
  press_count : JVal
  last_press : JVal
  time_since_last_seen : JVal
  time_since_last_online : JVal
deriving DecidableEq, Repr

/-- The view `getDevices` computes for one stored entry at time `now`.  The
`status` string of the source is `online ? 'online' : 'offline'` and is
subsumed by the `online` flag. -/
def deviceView (now : Int) (kv : List Char × DeviceState) : DeviceView :=
  let mac := kv.1
  let d := kv.2
  let timeSince := jsSub (.num now) (jOr d.last_seen (.num 0))
  let isOnline :=
    decide (d.online = JVal.bool true) &&
      (match toNumOpt timeSince with
       | some x => decide (x < staleThreshold)
       | none => false)
  let lastOnlineTs :=
    if isOnline then jOr d.last_online (jOr d.last_seen (.num now))
    else jOr d.last_online .null
  let timeSinceOnline := if truthy lastOnlineTs then jsSub (.num now) lastOnlineTs else .null
  { mac_address := mac
    online := isOnline
    last_seen := jOr d.last_seen (.num now)
    last_online := jOr lastOnlineTs .null
    armed := decide (d.armed = JVal.bool true)
    pressed := decide (d.pressed = JVal.bool true)
    press_count := jOr d.press_count (.num 0)
    last_press := jOr d.last_press .null
    time_since_last_seen := timeSince
    time_since_last_online := timeSinceOnline }

/-- `ESP32Service.getDevices`: a pure read-time projection of the store; the
store itself is not among the outputs because the source mutates nothing. -/
def getDevices (st : Store) (now : Int) : List DeviceView :=
  st.map (deviceView now)

/-! ## OSC dispatch engine (OSCService)

The engine is embedded with explicit failure oracles for the three effectful
collaborators a dispatch touches: the UDP send callback, the database
activity-log append, and the listeners of the live `osc-sent` notification.
Mapping resolution (`db.getMappingsForBuzzer`) is an external read-only query;
its result list is a parameter.  The OSC argument payload is parsed inside an
inner try/catch with fallback `[]`, so it cannot affect control flow or any
observation the claims mention and is not represented. -/

/-- One row of the `getMappingsForBuzzer` join. -/
structure OscMapping where
  command_address : String
  ip_address : String
  port : Int
  target_name : String
  device_name : Option String
deriving DecidableEq, Repr

/-- A row of `osc_commands` as read by `sendTestCommand`. -/
structure CommandRow where
  name : String
  address : String
deriving DecidableEq, Repr

/-- A row of `osc_targets` as read by `sendTestCommand`. -/
structure TargetRow where
  name : String
  ip_address : String
  port : Int
deriving DecidableEq, Repr

/-- Failure oracles of the effectful collaborators. -/
structure OscEnv where
  /-- The `client.send` callback reports an error for this pool key. -/
  sendFails : String → Bool
  /-- `db.logActivity` rejects for this event type. -/
  logFails : String → Bool
  /-- A listener of the `osc-sent` emission throws. -/
  emitFails : Bool

/-- One `db.logActivity` append that actually happened. -/
structure LogRec where
  eventType : String
  buzzer_mac : Option String
  success : Bool
deriving DecidableEq, Repr

/-- One `osc-sent` live notification that actually reached the listeners. -/
structure EmitRec where
  success : Bool
  osc_address : String
  target_name : String
  test : Bool
deriving DecidableEq, Repr

/-- One `client.send` call handed to the UDP socket layer. -/
structure SendRec where
  key : String
  address : String
deriving DecidableEq, Repr

/-- Observable result of a dispatch-path call: the pool contents, the log
appends, the live notifications, the network sends, and whether an exception
escaped to the caller. -/
structure DispatchResult where
  clients : List String
  logs : List LogRec
  emits : List EmitRec
  sends : List SendRec
  threw : Bool
deriving DecidableEq, Repr

/-- The pool key: `ip_address:port` exactly as interpolated in the source. -/
def targetKey (ip : String) (port : Int) : String := ip ++ ":" ++ toString port

/-- `this.clients.get(targetKey)` / lazily `new osc.Client` + `set`. -/
def getOrCreateClient (clients : List String) (key : String) : List String :=
  if key ∈ clients then clients else clients ++ [key]

/-- `OSCService.sendOSCMessage`: pool lookup/creation, the UDP send, then the
success-path log append and live notification; any rejection inside the try
body lands in the catch block, which appends a failure log record and emits a
failure notification, and whose own sink failures escape to the caller. -/
def sendOSCMessage (env : OscEnv) (clients : List String) (m : OscMapping) (mac : String) :
    DispatchResult :=
  let key := targetKey m.ip_address m.port
  let clients1 := getOrCreateClient clients key
  let sends : List SendRec := [⟨key, m.command_address⟩]
  let catchPath : List LogRec → DispatchResult := fun logs =>
    if env.logFails "osc_failed" then ⟨clients1, logs, [], sends, true⟩
    else
      let logs := logs ++ [⟨"osc_failed", some mac, false⟩]
      if env.emitFails then ⟨clients1, logs, [], sends, true⟩
      else ⟨clients1, logs, [⟨false, m.command_address, m.target_name, false⟩], sends, false⟩
  if env.sendFails key then catchPath []
  else if env.logFails "osc_sent" then catchPath []
  else if env.emitFails then catchPath [⟨"osc_sent", some mac, true⟩]
  else
    ⟨clients1, [⟨"osc_sent", some mac, true⟩],
      [⟨true, m.command_address, m.target_name, false⟩], sends, false⟩

/-- The `for (const mapping of mappings) await this.sendOSCMessage(...)` loop:
sequential, aborted only when a rejection escapes `sendOSCMessage`. -/
def sendLoop (env : OscEnv) (mac : String) :
    List String → List OscMapping → DispatchResult
  | clients, [] => ⟨clients, [], [], [], false⟩
  | clients, m :: ms =>
    let r := sendOSCMessage env clients m mac
    if r.threw then r
    else
      let rest := sendLoop env mac r.clients ms
      ⟨rest.clients, r.logs ++ rest.logs, r.emits ++ rest.emits,
        r.sends ++ rest.sends, rest.threw⟩

/-- `OSCService.processBuzzerPress` from the point where the mapping list is
in hand: the unmapped short-circuit, the dispatch loop, and the outer catch
that logs `buzzer_press_error`. -/
def processBuzzerPress (env : OscEnv) (clients : List String)
    (mappings : List OscMapping) (mac : String) : DispatchResult :=
  if mappings = [] then
    if env.logFails "buzzer_press_unmapped" then
      if env.logFails "buzzer_press_error" then ⟨clients, [], [], [], true⟩
      else ⟨clients, [⟨"buzzer_press_error", some mac, false⟩], [], [], false⟩
    else ⟨clients, [⟨"buzzer_press_unmapped", some mac, false⟩], [], [], false⟩
  else
    let r := sendLoop env mac clients mappings
    if r.threw then
      if env.logFails "buzzer_press_error" then
        ⟨r.clients, r.logs, r.emits, r.sends, true⟩
      else
        ⟨r.clients, r.logs ++ [⟨"buzzer_press_error", some mac, false⟩], r.emits, r.sends, false⟩
    else r

/-- `OSCService.sendTestCommand`: the administrator test path.  The command
and target rows are the `db.get` results (`none` when the id does not
resolve).  It shares `this.clients` with mapping-driven dispatch, reports
with a `test: true` marker, and rethrows after reporting a failure. -/
def sendTestCommand (env : OscEnv) (clients : List String)
    (command : Option CommandRow) (target : Option TargetRow) : DispatchResult :=
  let catchPath : List String → List LogRec → List SendRec → DispatchResult :=
    fun cl logs sends =>
      if env.logFails "test_osc_failed" then ⟨cl, logs, [], sends, true⟩
      else
        let logs := logs ++ [⟨"test_osc_failed", none, false⟩]
        if env.emitFails then ⟨cl, logs, [], sends, true⟩
        else ⟨cl, logs, [⟨false, "", "", true⟩], sends, true⟩
  match command, target with
  | none, _ => catchPath clients [] []
  | some _, none => catchPath clients [] []
  | some c, some t =>
    let key := targetKey t.ip_address t.port
    let clients1 := getOrCreateClient clients key
    let sends : List SendRec := [⟨key, c.address⟩]
    if env.sendFails key then catchPath clients1 [] sends
    else if env.logFails "test_osc_sent" then catchPath clients1 [] sends
    else if env.emitFails then catchPath clients1 [⟨"test_osc_sent", none, true⟩] sends
    else
      ⟨clients1, [⟨"test_osc_sent", none, true⟩],
        [⟨true, c.address, t.name, true⟩], sends, false⟩

/-! ## Presence-update sequences

For the lastOnlineAt monotonicity claim the two presence-update inputs the
spec names are replayed against the store: explicit `DEVICE:` lines (through
`parseDeviceData`) and byte-count-inferred discovery (through
`handleTriviaModeDevice`), each stamped with the `Date.now()` value current
when it was handled. -/

/-- A presence update as the spec classifies them. -/
inductive PresenceEvent where
  | line (raw : List Char)
  | inferred (mac : List Char)
deriving DecidableEq, Repr

def presenceStep (st : Store) (now : Int) : PresenceEvent → Store
  | .line raw => parseDeviceData st now raw
  | .inferred mac => handleTriviaModeDevice st now mac

/-- Replay a clock-stamped sequence of presence updates. -/
def runPresence : Store → List (Int × PresenceEvent) → Store
  | st, [] => st
  | st, (t, e) :: rest => runPresence (presenceStep st t e) rest

/-- The keys of the key=value section of a line, exactly as the
`parseDeviceData` loop decodes them. -/
def kvKeys (raw : List Char) : List (List Char) :=
  ((splitC ',' raw).drop 1).filterMap (fun part => (kvOfPart part).map (·.1))

/-- The presence update does not smuggle a literal `last_online` key through
the dynamic key=value loop. -/
def noLastOnlineKey : PresenceEvent → Prop
  | .line raw => "last_online".toList ∉ kvKeys raw
  | .inferred _ => True

/-- The stored lastOnlineAt value of a device key (null when absent). -/
def lastOnlineOf (st : Store) (k : List Char) : JVal :=
  match lookupStore st k with
  | some d => d.last_online
  | none => .null

/-- Order on stored lastOnlineAt values: absent/null below every timestamp,
timestamps by ≤, anything else (a non-timestamp value) incomparable. -/
def jleOn : JVal → JVal → Bool
  | .null, .null => true
  | .null, .num _ => true
  | .num a, .num b => a ≤ b
  | _, _ => false

/-- Every stored lastOnlineAt is a timestamp at most `t`, or absent. -/
def lastOnlineBound (st : Store) (t : Int) : Prop :=
  ∀ k, jleOn (lastOnlineOf st k) (.num t) = true

/-! ## Helper lemmas -/

lemma splitC_ne_nil (c : Char) (l : List Char) : splitC c l ≠ [] := by
  cases l with
  | nil => simp [splitC]
  | cons x xs =>
    simp only [splitC]
    split <;> simp

lemma splitC_not_mem {c : Char} {l : List Char} (h : c ∉ l) : splitC c l = [l] := by
  induction l with
  | nil => rfl
  | cons x xs ih =>
    have hx : ¬(x = c) := fun hc => h (hc ▸ List.mem_cons_self x xs)
    have h' : c ∉ xs := fun hm => h (List.mem_cons_of_mem _ hm)
    simp [splitC, hx, ih h']

lemma splitC_append {c : Char} {l₁ : List Char} (h : c ∉ l₁) (l₂ : List Char) :
    splitC c (l₁ ++ c :: l₂) = l₁ :: splitC c l₂ := by
  induction l₁ with
  | nil => simp [splitC]
  | cons x xs ih =>
    have hx : ¬(x = c) := fun hc => h (hc ▸ List.mem_cons_self x xs)
    have h' : c ∉ xs := fun hm => h (List.mem_cons_of_mem _ hm)
    simp [splitC, hx, ih h']

lemma splitC_headD (c : Char) (l : List Char) :
    (splitC c l).headD [] = l.takeWhile (fun a => !(a = c : Bool)) := by
  induction l with
  | nil => rfl
  | cons x xs ih =>
    by_cases hx : x = c
    · subst hx; simp [splitC, List.takeWhile_cons]
    · cases hsp : splitC c xs with
      | nil => exact absurd hsp (splitC_ne_nil c xs)
      | cons y ys =>
        rw [hsp] at ih
        simp [splitC, hx, hsp, List.takeWhile_cons, ← ih]

lemma isPrefixOf_append (p l : List Char) : p.isPrefixOf (p ++ l) = true := by
  induction p with
  | nil => simp [List.isPrefixOf]
  | cons x xs ih => simp [List.isPrefixOf, ih]

lemma not_isPrefix_of_false {p l : List Char} (h : p.isPrefixOf l = false) :
    ¬ p <+: l := by
  intro hp
  obtain ⟨t, rfl⟩ := hp
  rw [isPrefixOf_append] at h
  cases h

lemma lookup_setStore_self (st : Store) (k : List Char) (v : DeviceState) :
    lookupStore (setStore st k v) k = some v := by
  induction st with
  | nil => simp [setStore, lookupStore]
  | cons kv rest ih =>
    obtain ⟨k', v'⟩ := kv
    by_cases h : k' = k <;> simp [setStore, lookupStore, h, ih]

lemma lookup_setStore_ne (st : Store) {k k' : List Char} (v : DeviceState)
    (h : k' ≠ k) : lookupStore (setStore st k v) k' = lookupStore st k' := by
  have hne : ¬(k = k') := fun hc => h hc.symm
  induction st with
  | nil =>
    simp only [setStore, lookupStore]
    rw [if_neg hne]
  | cons kv rest ih =>
    obtain ⟨k'', v''⟩ := kv
    by_cases hk : k'' = k
    · subst hk
      simp only [setStore, if_pos rfl, lookupStore]
      rw [if_neg hne, if_neg hne]
    · simp only [setStore, if_neg hk, lookupStore]
      split <;> simp [ih]

/-- With both sinks healthy, one `sendOSCMessage` call yields exactly one log
record, one live notification and one send attempt, succeeding iff the UDP
callback reported no error, and never throws. -/
lemma sendOSCMessage_ok (env : OscEnv) (cl : List String) (m : OscMapping) (mac : String)
    (hlog : ∀ e, env.logFails e = false) (hemit : env.emitFails = false) :
    sendOSCMessage env cl m mac =
      ⟨getOrCreateClient cl (targetKey m.ip_address m.port),
       [⟨if env.sendFails (targetKey m.ip_address m.port) then "osc_failed" else "osc_sent",
         some mac, !env.sendFails (targetKey m.ip_address m.port)⟩],
       [⟨!env.sendFails (targetKey m.ip_address m.port), m.command_address, m.target_name, false⟩],
       [⟨targetKey m.ip_address m.port, m.command_address⟩], false⟩ := by
  unfold sendOSCMessage
  cases h : env.sendFails (targetKey m.ip_address m.port) <;> simp [h, hlog, hemit]

/-- The pool is updated by `sendOSCMessage` before any failure can occur. -/
lemma sendOSCMessage_clients (env : OscEnv) (cl : List String) (m : OscMapping) (mac : String) :
    (sendOSCMessage env cl m mac).clients =
      getOrCreateClient cl (targetKey m.ip_address m.port) := by
  unfold sendOSCMessage
  cases h1 : env.sendFails (targetKey m.ip_address m.port) <;>
    cases h2 : env.logFails "osc_sent" <;> cases h3 : env.logFails "osc_failed" <;>
      cases h4 : env.emitFails <;> simp [h1, h2, h3, h4]

/-- Same for the test path once both rows resolve. -/
lemma sendTestCommand_clients (env : OscEnv) (cl : List String)
    (c : CommandRow) (t : TargetRow) :
    (sendTestCommand env cl (some c) (some t)).clients =
      getOrCreateClient cl (targetKey t.ip_address t.port) := by
  unfold sendTestCommand
  cases h1 : env.sendFails (targetKey t.ip_address t.port) <;>
    cases h2 : env.logFails "test_osc_sent" <;> cases h3 : env.logFails "test_osc_failed" <;>
      cases h4 : env.emitFails <;> simp [h1, h2, h3, h4]

/-- The dispatch loop with healthy sinks: every mapping is attempted, and the
per-mapping effect lists concatenate in order. -/
lemma sendLoop_ok (env : OscEnv) (mac : String)
    (hlog : ∀ e, env.logFails e = false) (hemit : env.emitFails = false) :
    ∀ (ms : List OscMapping) (cl : List String),
    sendLoop env mac cl ms =
      ⟨ms.foldl (fun c m => getOrCreateClient c (targetKey m.ip_address m.port)) cl,
       ms.map (fun m =>
         ⟨if env.sendFails (targetKey m.ip_address m.port) then "osc_failed" else "osc_sent",
          some mac, !env.sendFails (targetKey m.ip_address m.port)⟩),
       ms.map (fun m =>
         ⟨!env.sendFails (targetKey m.ip_address m.port), m.command_address, m.target_name, false⟩),
       ms.map (fun m => ⟨targetKey m.ip_address m.port, m.command_address⟩), false⟩ := by
  intro ms
  induction ms with
  | nil => intro cl; rfl
  | cons m ms ih =>
    intro cl
    show sendLoop env mac cl (m :: ms) = _
    unfold sendLoop
    rw [sendOSCMessage_ok env cl m mac hlog hemit]
    simp only [List.foldl_cons, List.map_cons]
    rw [ih (getOrCreateClient cl (targetKey m.ip_address m.port))]
    simp

/-! ## Claim theorems -/

/-- C1: a press event resolving to N ≥ 1 active mappings produces exactly N
dispatch outcomes, one per mapping in order; each outcome succeeds iff the
UDP send for that mapping target succeeded, independently of the other
mappings; all N sends are attempted and nothing escapes the dispatch loop.
(The sink collaborators — activity log and live listeners — are healthy;
their failure modes are the subject of C2.) -/
theorem press_fanout_independent_outcomes (env : OscEnv) (cl : List String)
    (ms : List OscMapping) (mac : String)
    (hlog : ∀ e, env.logFails e = false) (hemit : env.emitFails = false)
    (hne : ms ≠ []) :
    (processBuzzerPress env cl ms mac).emits =
      ms.map (fun m =>
        ⟨!env.sendFails (targetKey m.ip_address m.port), m.command_address,
         m.target_name, false⟩) ∧
    (processBuzzerPress env cl ms mac).emits.length = ms.length ∧
    (processBuzzerPress env cl ms mac).sends.length = ms.length ∧
    (processBuzzerPress env cl ms mac).threw = false := by
  unfold processBuzzerPress
  rw [if_neg hne, sendLoop_ok env mac hlog hemit ms cl]
  simp

/-- C1 witness: three mappings with the middle target failing give exactly
two success outcomes and one failure outcome, all three present. -/
theorem press_fanout_independent_outcomes_witness :
    ((processBuzzerPress ⟨fun k => k = "10.0.0.2:9000", fun _ => false, false⟩ []
        [⟨"/a", "10.0.0.1", 9000, "t1", none⟩, ⟨"/b", "10.0.0.2", 9000, "t2", none⟩,
         ⟨"/c", "10.0.0.3", 9000, "t3", none⟩] "AA").emits.countP (·.success) = 2) ∧
    ((processBuzzerPress ⟨fun k => k = "10.0.0.2:9000", fun _ => false, false⟩ []
        [⟨"/a", "10.0.0.1", 9000, "t1", none⟩, ⟨"/b", "10.0.0.2", 9000, "t2", none⟩,
         ⟨"/c", "10.0.0.3", 9000, "t3", none⟩] "AA").emits.countP (fun e => !e.success) = 1) ∧
    ((processBuzzerPress ⟨fun k => k = "10.0.0.2:9000", fun _ => false, false⟩ []
        [⟨"/a", "10.0.0.1", 9000, "t1", none⟩, ⟨"/b", "10.0.0.2", 9000, "t2", none⟩,
         ⟨"/c", "10.0.0.3", 9000, "t3", none⟩] "AA").emits.length = 3) := by
  have h := press_fanout_independent_outcomes
    ⟨fun k => k = "10.0.0.2:9000", fun _ => false, false⟩ []
    [⟨"/a", "10.0.0.1", 9000, "t1", none⟩, ⟨"/b", "10.0.0.2", 9000, "t2", none⟩,
     ⟨"/c", "10.0.0.3", 9000, "t3", none⟩] "AA" (fun _ => rfl) rfl (by decide)
  refine ⟨?_, ?_, ?_⟩ <;> rw [h.1] <;> decide

/-- C2 counterexample: the two sink actions are not independent.  With the
UDP send succeeding but the activity-log append for the success record
rejecting, the live notification published is a failure record, not the
success record (first conjunct); and when the failure-path log append also
rejects, the exception propagates back into the dispatch path
(second conjunct, `threw = true`). -/
theorem sink_actions_independent_cex :
    ((sendOSCMessage ⟨fun _ => false, fun e => e = "osc_sent", false⟩ []
        ⟨"/a", "10.0.0.1", 9000, "t1", none⟩ "AA").emits =
      [⟨false, "/a", "t1", false⟩]) ∧
    ((sendOSCMessage ⟨fun _ => false, fun e => e = "osc_sent" || e = "osc_failed", false⟩ []
        ⟨"/a", "10.0.0.1", 9000, "t1", none⟩ "AA").threw = true) := by
  exact ⟨by decide, by decide⟩

/-- C2 amended: the two sink actions are sequenced and coupled, not
independent.  In each path the durable-log append runs before the live
publication; when the send succeeds but the success-path log append fails,
the success publication is suppressed and the catch path logs and publishes
only failure records; and the exception handed back to the dispatch path is
exactly the disjunction of the two catch-path sink failures — a failure of
the catch-path log append or of the catch-path publication each propagates. -/
theorem sink_actions_sequenced (env : OscEnv) (cl : List String) (m : OscMapping)
    (mac : String)
    (hsend : env.sendFails (targetKey m.ip_address m.port) = false)
    (hlog : env.logFails "osc_sent" = true) :
    ((sendOSCMessage env cl m mac).threw =
      (env.logFails "osc_failed" || env.emitFails)) ∧
    (∀ e ∈ (sendOSCMessage env cl m mac).emits, e.success = false) ∧
    (∀ l ∈ (sendOSCMessage env cl m mac).logs, l.eventType = "osc_failed") := by
  unfold sendOSCMessage
  cases hf : env.logFails "osc_failed" <;> cases he : env.emitFails <;>
    simp [hsend, hlog, hf, he]

/-- C2 amended witness at a concrete mapping: with a healthy catch path no
exception escapes, and with a throwing catch-path listener the exception
propagates even though the catch-path log append is healthy. -/
theorem sink_actions_sequenced_witness :
    ((sendOSCMessage ⟨fun _ => false, fun e => e = "osc_sent", false⟩ []
        ⟨"/a", "10.0.0.1", 9000, "t1", none⟩ "AA").threw = false) ∧
    ((sendOSCMessage ⟨fun _ => false, fun e => e = "osc_sent", true⟩ []
        ⟨"/a", "10.0.0.1", 9000, "t1", none⟩ "AA").threw = true) ∧
    (∀ e ∈ (sendOSCMessage ⟨fun _ => false, fun e => e = "osc_sent", false⟩ []
        ⟨"/a", "10.0.0.1", 9000, "t1", none⟩ "AA").emits, e.success = false) := by
  have h1 := sink_actions_sequenced ⟨fun _ => false, fun e => e = "osc_sent", false⟩ []
    ⟨"/a", "10.0.0.1", 9000, "t1", none⟩ "AA" rfl (by decide)
  have h2 := sink_actions_sequenced ⟨fun _ => false, fun e => e = "osc_sent", true⟩ []
    ⟨"/a", "10.0.0.1", 9000, "t1", none⟩ "AA" rfl (by decide)
  exact ⟨h1.1, h2.1, h1.2.1⟩

/-- C3: a press whose identifier resolves to zero active mappings produces
exactly one unmapped activity outcome, no live notification, zero network
sends, and terminates without raising. -/
theorem unmapped_press_single_outcome (env : OscEnv) (cl : List String) (mac : String)
    (hlog : ∀ e, env.logFails e = false) :
    processBuzzerPress env cl [] mac =
      ⟨cl, [⟨"buzzer_press_unmapped", some mac, false⟩], [], [], false⟩ := by
  unfold processBuzzerPress
  simp [hlog]

/-- C3 witness. -/
theorem unmapped_press_single_outcome_witness :
    processBuzzerPress ⟨fun _ => false, fun _ => false, false⟩ [] [] "AA:BB:CC:DD:EE:FF" =
      ⟨[], [⟨"buzzer_press_unmapped", some "AA:BB:CC:DD:EE:FF", false⟩], [], [], false⟩ :=
  unmapped_press_single_outcome ⟨fun _ => false, fun _ => false, false⟩ [] "AA:BB:CC:DD:EE:FF"
    (fun _ => rfl)

/-- C4: pooled sender creation is keyed strictly on the address:port string:
dispatching to a mapping and then running the administrator test path against
a differently named target with the same address and port leaves exactly one
pooled sender, shared by both requests, whatever the failure oracles do. -/
theorem pool_idempotent_shared_key (env : OscEnv) (c : CommandRow) (m : OscMapping)
    (t : TargetRow) (mac : String)
    (hip : m.ip_address = t.ip_address) (hport : m.port = t.port)
    (_hname : m.target_name ≠ t.name) :
    (sendOSCMessage env [] m mac).clients = [targetKey m.ip_address m.port] ∧
    (sendTestCommand env (sendOSCMessage env [] m mac).clients
        (some c) (some t)).clients = [targetKey m.ip_address m.port] := by
  have h1 : (sendOSCMessage env [] m mac).clients = [targetKey m.ip_address m.port] := by
    rw [sendOSCMessage_clients]
    simp [getOrCreateClient]
  refine ⟨h1, ?_⟩
  rw [sendTestCommand_clients, h1, ← hip, ← hport]
  simp [getOrCreateClient]

/-- C4 witness: two targets named differently, same address and port. -/
theorem pool_idempotent_shared_key_witness :
    (sendOSCMessage ⟨fun _ => false, fun _ => false, false⟩ []
        ⟨"/a", "10.0.0.1", 9000, "main-screen", none⟩ "AA").clients = ["10.0.0.1:9000"] ∧
    (sendTestCommand ⟨fun _ => false, fun _ => false, false⟩
        (sendOSCMessage ⟨fun _ => false, fun _ => false, false⟩ []
          ⟨"/a", "10.0.0.1", 9000, "main-screen", none⟩ "AA").clients
        (some ⟨"cue", "/a"⟩) (some ⟨"backup-screen", "10.0.0.1", 9000⟩)).clients =
      ["10.0.0.1:9000"] := by
  have h := pool_idempotent_shared_key ⟨fun _ => false, fun _ => false, false⟩
    ⟨"cue", "/a"⟩ ⟨"/a", "10.0.0.1", 9000, "main-screen", none⟩
    ⟨"backup-screen", "10.0.0.1", 9000⟩ "AA" rfl rfl (by decide)
  exact h

lemma jOr_num_zero (t : Int) : jOr (.num t) (.num 0) = .num t := by
  by_cases h : t = 0 <;> simp [jOr, truthy, h]

/-- C5: the snapshot classifies each stored entry at read time against the
60-second staleness window.  An entry whose stored online flag is `true` but
whose lastSeenAt is more than the threshold before the snapshot `now` is
reported offline; one within the threshold with the flag `true` is reported
online.  `getDevices` is a pure projection of the store — the stored flag is
an input, never an output, so taking the snapshot mutates nothing. -/
theorem snapshot_staleness_classification (st : Store) (now t : Int)
    (mac : List Char) (d : DeviceState) (hmem : (mac, d) ∈ st)
    (hon : d.online = .bool true) (hseen : d.last_seen = .num t) :
    deviceView now (mac, d) ∈ getDevices st now ∧
    (staleThreshold < now - t → (deviceView now (mac, d)).online = false) ∧
    (now - t < staleThreshold → (deviceView now (mac, d)).online = true) := by
  refine ⟨List.mem_map_of_mem _ hmem, ?_, ?_⟩ <;> intro h
  · have hlt : ¬(now - t < staleThreshold) := by omega
    simp [deviceView, hon, hseen, jOr_num_zero, jsSub, toNumOpt, hlt]
  · simp [deviceView, hon, hseen, jOr_num_zero, jsSub, toNumOpt, h]

/-- C5 witness: a device last seen at t=100 with stored flag online is
reported offline in a snapshot taken at now=70000 (69900 ms later). -/
theorem snapshot_staleness_classification_witness :
    (deviceView 70000 ("AA".toList,
      ⟨.str "AA".toList, .num 100, .num 100, .bool true, .bool false, .bool false,
       .num 0, .null, .null⟩)).online = false :=
  (snapshot_staleness_classification
    [("AA".toList,
      ⟨.str "AA".toList, .num 100, .num 100, .bool true, .bool false, .bool false,
       .num 0, .null, .null⟩)]
    70000 100 "AA".toList
    ⟨.str "AA".toList, .num 100, .num 100, .bool true, .bool false, .bool false,
     .num 0, .null, .null⟩
    (List.mem_singleton.mpr rfl) rfl rfl).2.1 (by decide)

/-- C7: the exact line `BUZZER:AA:BB:CC:DD:EE:FF,1700000000000` yields one
press event whose identifier is the full MAC and whose timestamp is the
number 1700000000000. -/
theorem buzzer_line_roundtrip :
    (handleSerialData ⟨[], .null, .null⟩ 12345
        "BUZZER:AA:BB:CC:DD:EE:FF,1700000000000".toList).presses =
      [⟨"AA:BB:CC:DD:EE:FF".toList, .num 1700000000000, 12345⟩] := by
  decide

/-- The press event payload does not depend on whether the device entry
exists. -/
lemma handleBuzzerPress_event (st : Store) (now : Int) (mac : List Char) (ts : JVal) :
    (handleBuzzerPress st now mac ts).2 = ⟨mac, ts, now⟩ := by
  unfold handleBuzzerPress
  cases h : lookupStore st mac <;> simp [h]

/-- C8 counterexample: for a `BUZZER:` line with a non-numeric timestamp the
press event is still produced, but its timestamp field is the JavaScript NaN
sentinel — a value distinct from null — so the claim that the timestamp is
null is false at the line `BUZZER:AB,xyz`. -/
theorem malformed_timestamp_null_cex :
    (handleSerialData ⟨[], .null, .null⟩ 5 "BUZZER:AB,xyz".toList).presses =
      [⟨"AB".toList, JVal.nan, 5⟩] ∧ JVal.nan ≠ JVal.null := by
  decide

/-- C8 amended: for every line `BUZZER:<id>,<ts>` with `<ts>` non-numeric
(`parseInt` yields NaN), the parser still produces exactly one press event
for `<id>` — no hard error — whose timestamp is the NaN sentinel rather than
a number; NaN is falsy, so the snapshot projection `last_press || null`
reports it as null (second conjunct). -/
theorem malformed_timestamp_press_event (st : ESPState) (now : Int) (id ts : List Char)
    (hid : ',' ∉ id) (hts : ',' ∉ ts) (hnum : parseIntJS ts = none) :
    (handleSerialData st now ("BUZZER:".toList ++ (id ++ ',' :: ts))).presses =
      [⟨id, JVal.nan, now⟩] ∧ jOr JVal.nan JVal.null = JVal.null := by
  refine ⟨?_, rfl⟩
  have hdrop : ("BUZZER:".toList ++ (id ++ ',' :: ts)).drop 7 = id ++ ',' :: ts := by
    rw [show (7 : Nat) = ("BUZZER:".toList).length from rfl]
    exact List.drop_left ..
  have hsplit : splitC ',' (id ++ ',' :: ts) = [id, ts] := by
    rw [splitC_append hid, splitC_not_mem hts]
  simp only [handleSerialData, isPrefixOf_append, if_true, hdrop, hsplit]
  simp [handleBuzzerPress_event, hnum, pressTimestamp]

/-- C8 amended witness at the concrete line `BUZZER:AB,xyz`. -/
theorem malformed_timestamp_press_event_witness :
    (handleSerialData ⟨[], .null, .null⟩ 5 ("BUZZER:".toList ++ ("AB".toList ++ ',' :: "xyz".toList))).presses =
      [⟨"AB".toList, JVal.nan, 5⟩] ∧ jOr JVal.nan JVal.null = JVal.null :=
  malformed_timestamp_press_event ⟨[], .null, .null⟩ 5 "AB".toList "xyz".toList
    (by decide) (by decide) (by decide)

/-- C9: a byte-count reception report line that reaches the trivia-discovery
branch and matches a hardware address marks exactly that device online with
the heartbeat-inferred discovery mode, carries over its existing press count
and last-press history (0 / null when no prior entry existed), and leaves
every other device entry untouched. -/
theorem bytecount_presence_update (st : ESPState) (now : Int) (data mac : List Char)
    (h1 : "BUZZER:".toList.isPrefixOf data = false)
    (h2 : "STATUS:".toList.isPrefixOf data = false)
    (h3 : "DEVICE:".toList.isPrefixOf data = false)
    (h4 : containsSub "Heartbeat from device".toList data = false)
    (h5 : containsSub "Received".toList data = true)
    (h6 : containsSub "bytes from:".toList data = true)
    (h7 : matchBytesFromMac data = some mac) :
    lookupStore (handleSerialData st now data).state.deviceStates mac =
      some ⟨.str mac, .num now, .num now, .bool true, .bool false, .bool false,
        jOr (fieldOr (lookupStore st.deviceStates mac) (·.press_count)) (.num 0),
        jOr (fieldOr (lookupStore st.deviceStates mac) (·.last_press)) .null,
        .str "trivia_heartbeat".toList⟩ ∧
    ∀ k, k ≠ mac →
      lookupStore (handleSerialData st now data).state.deviceStates k =
        lookupStore st.deviceStates k := by
  have hstep : (handleSerialData st now data).state.deviceStates =
      handleTriviaModeDevice st.deviceStates now mac := by
    have h1' := not_isPrefix_of_false h1
    have h2' := not_isPrefix_of_false h2
    have h3' := not_isPrefix_of_false h3
    have h4' := h4
    have h5' := h5
    have h6' := h6
    simp at h1' h2' h3' h4' h5' h6'
    simp [handleSerialData, h1', h2', h3', h4', h5', h6', h7]
  constructor
  · rw [hstep]
    unfold handleTriviaModeDevice
    rw [lookup_setStore_self]
  · intro k hk
    rw [hstep]
    unfold handleTriviaModeDevice
    exact lookup_setStore_ne _ _ hk

/-- C9 witness: the sample line updates the named MAC, preserving a prior
press count of 7 and last press of 3. -/
theorem bytecount_presence_update_witness :
    lookupStore (handleSerialData
        ⟨[("EC:62:60:1D:E8:D4".toList,
           ⟨.str "EC:62:60:1D:E8:D4".toList, .num 1, .num 1, .bool true, .bool false,
            .bool false, .num 7, .num 3, .null⟩)], .null, .null⟩ 50
        "Received 16 bytes from: EC:62:60:1D:E8:D4".toList).state.deviceStates
      "EC:62:60:1D:E8:D4".toList =
      some ⟨.str "EC:62:60:1D:E8:D4".toList, .num 50, .num 50, .bool true, .bool false,
        .bool false, .num 7, .num 3, .str "trivia_heartbeat".toList⟩ := by
  have h := bytecount_presence_update
    ⟨[("EC:62:60:1D:E8:D4".toList,
       ⟨.str "EC:62:60:1D:E8:D4".toList, .num 1, .num 1, .bool true, .bool false,
        .bool false, .num 7, .num 3, .null⟩)], .null, .null⟩ 50
    "Received 16 bytes from: EC:62:60:1D:E8:D4".toList "EC:62:60:1D:E8:D4".toList
    (by decide) (by decide) (by decide) (by decide) (by decide) (by decide) (by decide)
  rw [h.1]
  decide

/-- C10 (implicit behaviour): a `DEVICE:<mac>,<kv>` line is stored under the
portion of the identifier before its first colon, which for a colon-separated
MAC is a different key than the full MAC that press events use; consequently
a subsequent press for the full MAC leaves the DEVICE-created entry entirely
unchanged, and creates no entry under the full MAC if none existed. -/
theorem device_press_key_mismatch (st : Store) (now now2 : Int)
    (mac rest : List Char) (ts : JVal)
    (hmc : ',' ∉ mac) (hcolon : ':' ∈ mac)
    (hk : mac.takeWhile (fun a => !(a = ':' : Bool)) ≠ []) :
    (lookupStore (parseDeviceData st now ("DEVICE:".toList ++ (mac ++ ',' :: rest)))
        (mac.takeWhile (fun a => !(a = ':' : Bool)))).isSome = true ∧
    mac.takeWhile (fun a => !(a = ':' : Bool)) ≠ mac ∧
    lookupStore
        ((handleBuzzerPress
            (parseDeviceData st now ("DEVICE:".toList ++ (mac ++ ',' :: rest)))
            now2 mac ts).1)
        (mac.takeWhile (fun a => !(a = ':' : Bool))) =
      lookupStore (parseDeviceData st now ("DEVICE:".toList ++ (mac ++ ',' :: rest)))
        (mac.takeWhile (fun a => !(a = ':' : Bool))) := by
  have hkm : mac.takeWhile (fun a => !(a = ':' : Bool)) ≠ mac := by
    intro he
    have hall := List.takeWhile_eq_self_iff.mp he
    have := hall ':' hcolon
    simp at this
  have hnc : ',' ∉ ("DEVICE:".toList ++ mac) := by
    intro hmem
    rcases List.mem_append.mp hmem with h | h
    · revert h; decide
    · exact hmc h
  have hparts : splitC ',' ("DEVICE:".toList ++ (mac ++ ',' :: rest)) =
      ("DEVICE:".toList ++ mac) :: splitC ',' rest := by
    rw [show "DEVICE:".toList ++ (mac ++ ',' :: rest) =
          ("DEVICE:".toList ++ mac) ++ ',' :: rest from (List.append_assoc ..).symm,
        splitC_append hnc]
  have hdp : ("DEVICE:".toList ++ mac) = "DEVICE".toList ++ ':' :: mac := by
    rw [show "DEVICE:".toList = "DEVICE".toList ++ [':'] from rfl, List.append_assoc]
    rfl
  obtain ⟨kv1, kvs, hkv⟩ : ∃ a l, splitC ',' rest = a :: l := by
    cases hr : splitC ',' rest with
    | nil => exact absurd hr (splitC_ne_nil ',' rest)
    | cons a l => exact ⟨a, l, rfl⟩
  have hcsplit : splitC ':' ("DEVICE:".toList ++ mac) =
      "DEVICE".toList :: splitC ':' mac := by
    rw [hdp, splitC_append (by decide)]
  obtain ⟨m2, ms, hm2⟩ : ∃ a l, splitC ':' mac = a :: l := by
    cases hr : splitC ':' mac with
    | nil => exact absurd hr (splitC_ne_nil ':' mac)
    | cons a l => exact ⟨a, l, rfl⟩
  have hm2head : m2 = mac.takeWhile (fun a => !(a = ':' : Bool)) := by
    rw [← splitC_headD, hm2]
    rfl
  have hm2ne : ¬(m2 = []) := by
    rw [hm2head]
    exact hk
  have hpd : parseDeviceData st now ("DEVICE:".toList ++ (mac ++ ',' :: rest)) =
      setStore st (mac.takeWhile (fun a => !(a = ':' : Bool)))
        (deviceParams st now (mac.takeWhile (fun a => !(a = ':' : Bool)))
          (splitC ',' rest)) := by
    rw [← hm2head]
    unfold parseDeviceData
    rw [hparts, hkv]
    dsimp only
    rw [if_pos (isPrefixOf_append "DEVICE:".toList mac), hcsplit, hm2]
    dsimp only
    rw [if_neg hm2ne]
  refine ⟨?_, hkm, ?_⟩
  · rw [hpd, lookup_setStore_self]
    rfl
  · rw [hpd]
    unfold handleBuzzerPress
    cases hlp : lookupStore (setStore st (mac.takeWhile (fun a => !(a = ':' : Bool)))
        (deviceParams st now (mac.takeWhile (fun a => !(a = ':' : Bool)))
          (splitC ',' rest))) mac with
    | none => simp [hlp]
    | some d =>
      simp only [hlp]
      exact lookup_setStore_ne _ _ hkm

/-- C10 witness: `DEVICE:11:22:33:44:55:66,online=1` is stored under key `11`,
and a press for the full MAC leaves that entry unchanged. -/
theorem device_press_key_mismatch_witness :
    (lookupStore (parseDeviceData [] 1 ("DEVICE:".toList ++ ("11:22:33:44:55:66".toList ++ ',' :: "online=1".toList)))
        ("11:22:33:44:55:66".toList.takeWhile (fun a => !(a = ':' : Bool)))).isSome = true ∧
    "11:22:33:44:55:66".toList.takeWhile (fun a => !(a = ':' : Bool)) ≠ "11:22:33:44:55:66".toList ∧
    lookupStore
        ((handleBuzzerPress
            (parseDeviceData [] 1 ("DEVICE:".toList ++ ("11:22:33:44:55:66".toList ++ ',' :: "online=1".toList)))
            2 "11:22:33:44:55:66".toList JVal.nan).1)
        ("11:22:33:44:55:66".toList.takeWhile (fun a => !(a = ':' : Bool))) =
      lookupStore (parseDeviceData [] 1 ("DEVICE:".toList ++ ("11:22:33:44:55:66".toList ++ ',' :: "online=1".toList)))
        ("11:22:33:44:55:66".toList.takeWhile (fun a => !(a = ':' : Bool))) :=
  device_press_key_mismatch [] 1 2 "11:22:33:44:55:66".toList "online=1".toList JVal.nan
    (by decide) (by decide) (by decide)

/-! ## lastOnlineAt monotonicity (C6) -/

lemma jleOn_trans {a b c : JVal} (h1 : jleOn a b = true) (h2 : jleOn b c = true) :
    jleOn a c = true := by
  cases a <;> cases b <;> cases c <;> simp_all [jleOn] <;> omega

lemma jleOn_refl_of_bound {a : JVal} {t : Int} (h : jleOn a (.num t) = true) :
    jleOn a a = true := by
  cases a <;> simp_all [jleOn]

lemma jleOn_mono_right {a : JVal} {t t' : Int} (h : jleOn a (.num t) = true)
    (ht : t ≤ t') : jleOn a (.num t') = true := by
  cases a <;> simp_all [jleOn] <;> omega

lemma applyKV_last_online {p : DeviceState} {k : List Char} {v : JVal}
    (h : k ≠ "last_online".toList) : (applyKV p k v).last_online = p.last_online := by
  unfold applyKV
  split_ifs with h1 h2 h3 h4 h5 h6 h7 h8 h9 <;> first | rfl | exact absurd h3 h

lemma applyKVs_last_online {parts : List (List Char)}
    (h : ∀ part ∈ parts, ∀ kv, kvOfPart part = some kv → kv.1 ≠ "last_online".toList) :
    ∀ p : DeviceState, (applyKVs p parts).last_online = p.last_online := by
  induction parts with
  | nil => intro p; rfl
  | cons part rest ih =>
    intro p
    have hrest : ∀ q ∈ rest, ∀ kv, kvOfPart q = some kv → kv.1 ≠ "last_online".toList :=
      fun q hq => h q (List.mem_cons_of_mem _ hq)
    simp only [applyKVs]
    cases hkv : kvOfPart part with
    | none => exact ih hrest p
    | some kv =>
      obtain ⟨k, v⟩ := kv
      rw [ih hrest, applyKV_last_online (h part (List.mem_cons_self ..) (k, v) hkv)]

/-- Without a literal last_online key in the key=value section, the params
object a DEVICE line stores carries either the fresh clock value (the device
reported online) or the previously stored lastOnlineAt. -/
lemma deviceParams_last_online (st : Store) (now : Int) (mac : List Char)
    (kvparts : List (List Char))
    (h : ∀ part ∈ kvparts, ∀ kv, kvOfPart part = some kv → kv.1 ≠ "last_online".toList) :
    (deviceParams st now mac kvparts).last_online = .num now ∨
    (deviceParams st now mac kvparts).last_online = lastOnlineOf st mac := by
  have hol : fieldOr (lookupStore st mac) (·.last_online) = lastOnlineOf st mac := by
    unfold lastOnlineOf fieldOr
    cases lookupStore st mac <;> rfl
  simp only [deviceParams]
  split_ifs with h1 h2
  · left; rfl
  · right; exact hol
  · right
    rw [applyKVs_last_online h]
    exact hol

lemma lastOnlineOf_setStore_self (st : Store) (mac : List Char) (d : DeviceState) :
    lastOnlineOf (setStore st mac d) mac = d.last_online := by
  unfold lastOnlineOf
  rw [lookup_setStore_self]

lemma lastOnlineOf_setStore_ne (st : Store) {mac k : List Char} (d : DeviceState)
    (h : k ≠ mac) : lastOnlineOf (setStore st mac d) k = lastOnlineOf st k := by
  unfold lastOnlineOf
  rw [lookup_setStore_ne _ _ h]

/-- One DEVICE line keeps every stored lastOnlineAt non-decreasing and below
the clock, provided the line does not carry a literal last_online key. -/
lemma parseDeviceData_lastOnline_step (st : Store) (t now : Int) (raw k : List Char)
    (hb : lastOnlineBound st t) (ht : t ≤ now)
    (hc : "last_online".toList ∉ kvKeys raw) :
    jleOn (lastOnlineOf st k) (lastOnlineOf (parseDeviceData st now raw) k) = true ∧
    jleOn (lastOnlineOf (parseDeviceData st now raw) k) (.num now) = true := by
  have hrefl : ∀ j, jleOn (lastOnlineOf st j) (lastOnlineOf st j) = true :=
    fun j => jleOn_refl_of_bound (hb j)
  have hbound : ∀ j, jleOn (lastOnlineOf st j) (.num now) = true :=
    fun j => jleOn_mono_right (hb j) ht
  have hclean : ∀ part ∈ (splitC ',' raw).drop 1, ∀ kv,
      kvOfPart part = some kv → kv.1 ≠ "last_online".toList := by
    intro part hp kv hkv heq
    refine hc ?_
    unfold kvKeys
    exact List.mem_filterMap.mpr ⟨part, hp, by simp [hkv, heq]⟩
  have hst : jleOn (lastOnlineOf st k) (lastOnlineOf st k) = true ∧
      jleOn (lastOnlineOf st k) (.num now) = true := ⟨hrefl k, hbound k⟩
  cases hsp : splitC ',' raw with
  | nil =>
    have hpd : parseDeviceData st now raw = st := by
      unfold parseDeviceData
      rw [hsp]
    rw [hpd]
    exact hst
  | cons dp kvrest =>
    cases kvrest with
    | nil =>
      have hpd : parseDeviceData st now raw = st := by
        unfold parseDeviceData
        rw [hsp]
      rw [hpd]
      exact hst
    | cons kv1 kvs =>
      have hdrop : (splitC ',' raw).drop 1 = kv1 :: kvs := by rw [hsp]; rfl
      cases h2 : "DEVICE:".toList.isPrefixOf dp with
      | false =>
        have hpd : parseDeviceData st now raw = st := by
          unfold parseDeviceData
          rw [hsp]
          dsimp only
          rw [if_neg (by rw [h2]; exact Bool.false_ne_true)]
        rw [hpd]
        exact hst
      | true =>
        cases hcs : splitC ':' dp with
        | nil =>
          have hpd : parseDeviceData st now raw = st := by
            unfold parseDeviceData
            rw [hsp]
            dsimp only
            rw [if_pos h2, hcs]
          rw [hpd]
          exact hst
        | cons a rest2 =>
          cases rest2 with
          | nil =>
            have hpd : parseDeviceData st now raw = st := by
              unfold parseDeviceData
              rw [hsp]
              dsimp only
              rw [if_pos h2, hcs]
            rw [hpd]
            exact hst
          | cons mac ms =>
            by_cases hmac : mac = []
            · have hpd : parseDeviceData st now raw = st := by
                unfold parseDeviceData
                rw [hsp]
                dsimp only
                rw [if_pos h2, hcs]
                dsimp only
                rw [if_pos hmac]
              rw [hpd]
              exact hst
            · have hpd : parseDeviceData st now raw =
                  setStore st mac (deviceParams st now mac (kv1 :: kvs)) := by
                unfold parseDeviceData
                rw [hsp]
                dsimp only
                rw [if_pos h2, hcs]
                dsimp only
                rw [if_neg hmac]
              have hcleanD : ∀ part ∈ kv1 :: kvs, ∀ kv,
                  kvOfPart part = some kv → kv.1 ≠ "last_online".toList := by
                rw [← hdrop]
                exact hclean
              rw [hpd]
              by_cases hk : k = mac
              · subst hk
                rw [lastOnlineOf_setStore_self]
                rcases deviceParams_last_online st now k _ hcleanD with hdl | hdl <;>
                  rw [hdl]
                · exact ⟨hbound k, by simp [jleOn]⟩
                · exact ⟨hrefl k, hbound k⟩
              · rw [lastOnlineOf_setStore_ne _ _ hk]
                exact hst

/-- Byte-count-inferred discovery stamps lastOnlineAt with the clock. -/
lemma trivia_lastOnline_step (st : Store) (t now : Int) (mac k : List Char)
    (hb : lastOnlineBound st t) (ht : t ≤ now) :
    jleOn (lastOnlineOf st k) (lastOnlineOf (handleTriviaModeDevice st now mac) k) = true ∧
    jleOn (lastOnlineOf (handleTriviaModeDevice st now mac) k) (.num now) = true := by
  unfold handleTriviaModeDevice
  by_cases hk : k = mac
  · subst hk
    rw [lastOnlineOf_setStore_self]
    exact ⟨jleOn_mono_right (hb k) ht, by simp [jleOn]⟩
  · rw [lastOnlineOf_setStore_ne _ _ hk]
    exact ⟨jleOn_refl_of_bound (hb k), jleOn_mono_right (hb k) ht⟩

lemma presenceStep_lastOnline (st : Store) (t now : Int) (e : PresenceEvent)
    (k : List Char) (hb : lastOnlineBound st t) (ht : t ≤ now)
    (hc : noLastOnlineKey e) :
    jleOn (lastOnlineOf st k) (lastOnlineOf (presenceStep st now e) k) = true ∧
    jleOn (lastOnlineOf (presenceStep st now e) k) (.num now) = true := by
  cases e with
  | line raw => exact parseDeviceData_lastOnline_step st t now raw k hb ht hc
  | inferred mac => exact trivia_lastOnline_step st t now mac k hb ht

lemma runPresence_lastOnline :
    ∀ (events : List (Int × PresenceEvent)) (st : Store) (t0 : Int),
    lastOnlineBound st t0 →
    List.Chain' (· ≤ ·) (t0 :: events.map Prod.fst) →
    (∀ e ∈ events, noLastOnlineKey e.2) →
    (∀ k, jleOn (lastOnlineOf st k) (lastOnlineOf (runPresence st events) k) = true) ∧
    lastOnlineBound (runPresence st events) ((events.map Prod.fst).getLastD t0) := by
  intro events
  induction events with
  | nil =>
    intro st t0 hb _ _
    exact ⟨fun k => jleOn_refl_of_bound (hb k), hb⟩
  | cons te rest ih =>
    obtain ⟨t1, e1⟩ := te
    intro st t0 hb hchron hclean
    have hchain := List.chain'_cons.mp hchron
    have hstep := fun k => presenceStep_lastOnline st t0 t1 e1 k hb hchain.1
      (hclean (t1, e1) (List.mem_cons_self ..))
    have hb1 : lastOnlineBound (presenceStep st t1 e1) t1 := fun k => (hstep k).2
    have hrest := ih (presenceStep st t1 e1) t1 hb1 hchain.2
      (fun e he => hclean e (List.mem_cons_of_mem _ he))
    refine ⟨fun k => jleOn_trans (hstep k).1 (hrest.1 k), ?_⟩
    rw [show ((t1, e1) :: rest).map Prod.fst = t1 :: rest.map Prod.fst from rfl,
      List.getLastD_cons]
    exact hrest.2

/-- C6 counterexample: the claim as stated is false on the code.  Starting
from empty state, `DEVICE:AA,online=1` at clock 100 stores lastOnlineAt 100,
but the later presence line `DEVICE:AA,online=0,last_online=7` at clock 200
— an explicit DEVICE line, hence a presence update the claim quantifies over
— overwrites the stored lastOnlineAt with the string value `7` through the
dynamic key=value loop: numerically 7 < 100, so the stored value is not
monotonically non-decreasing, and the earlier value 100 is not preserved. -/
theorem lastOnline_monotone_cex :
    lastOnlineOf (runPresence [] [(100, .line "DEVICE:AA,online=1".toList)])
      "AA".toList = JVal.num 100 ∧
    lastOnlineOf (runPresence []
        [(100, .line "DEVICE:AA,online=1".toList),
         (200, .line "DEVICE:AA,online=0,last_online=7".toList)])
      "AA".toList = JVal.str ['7'] ∧
    toNumOpt (JVal.str ['7']) = some 7 ∧ (7 : Int) < 100 ∧
    jleOn (JVal.num 100) (JVal.str ['7']) = false := by
  decide

/-- C6 amended: restricted to presence updates whose key=value pairs do not
carry a literal `last_online` key (the counterexample above shows the
unrestricted claim fails), the stored lastOnlineAt is monotonically
non-decreasing over any sequence of DEVICE-line and byte-count-inferred
updates applied with a non-decreasing clock, and a value once stored as a
timestamp is still a timestamp at least as large after any such sequence —
in particular an update that reports the device offline preserves it. -/
theorem lastOnline_monotone (events : List (Int × PresenceEvent)) (st0 : Store)
    (t0 : Int) (k : List Char)
    (hb : lastOnlineBound st0 t0)
    (hchron : List.Chain' (· ≤ ·) (t0 :: events.map Prod.fst))
    (hclean : ∀ e ∈ events, noLastOnlineKey e.2) :
    jleOn (lastOnlineOf st0 k) (lastOnlineOf (runPresence st0 events) k) = true ∧
    (∀ n : Int, lastOnlineOf st0 k = .num n →
      ∃ m : Int, n ≤ m ∧ lastOnlineOf (runPresence st0 events) k = .num m) := by
  have h := runPresence_lastOnline events st0 t0 hb hchron hclean
  refine ⟨h.1 k, fun n hn => ?_⟩
  have hmono := h.1 k
  rw [hn] at hmono
  cases hfin : lastOnlineOf (runPresence st0 events) k with
  | num m =>
    rw [hfin] at hmono
    simp [jleOn] at hmono
    exact ⟨m, hmono, rfl⟩
  | nan => rw [hfin] at hmono; simp [jleOn] at hmono
  | str s => rw [hfin] at hmono; simp [jleOn] at hmono
  | bool b => rw [hfin] at hmono; simp [jleOn] at hmono
  | null => rw [hfin] at hmono; simp [jleOn] at hmono

/-- C6 amended witness: a device with stored lastOnlineAt 50 goes online at
100 and offline at 200; across the run the stored value never decreased. -/
theorem lastOnline_monotone_witness :
    jleOn
      (lastOnlineOf [("AA".toList,
        ⟨.str "AA".toList, .num 50, .num 50, .bool true, .bool false, .bool false,
         .num 0, .null, .null⟩)] "AA".toList)
      (lastOnlineOf (runPresence [("AA".toList,
        ⟨.str "AA".toList, .num 50, .num 50, .bool true, .bool false, .bool false,
         .num 0, .null, .null⟩)]
        [(100, .line "DEVICE:AA,online=1".toList),
         (200, .line "DEVICE:AA,online=0".toList)]) "AA".toList) = true := by
  have h := lastOnline_monotone
    [(100, .line "DEVICE:AA,online=1".toList), (200, .line "DEVICE:AA,online=0".toList)]
    [("AA".toList,
      ⟨.str "AA".toList, .num 50, .num 50, .bool true, .bool false, .bool false,
       .num 0, .null, .null⟩)] 50 "AA".toList
    (by
      intro j
      by_cases hj : ['A', 'A'] = j
      · subst hj
        decide
      · simp [lastOnlineOf, lookupStore, hj, jleOn])
    (by
      show List.Chain' (· ≤ ·) [(50 : Int), 100, 200]
      refine List.chain'_cons.mpr ⟨by norm_num,
        List.chain'_cons.mpr ⟨by norm_num, List.chain'_singleton _⟩⟩)
    (by
      intro e he
      simp only [List.mem_cons, List.not_mem_nil, or_false] at he
      rcases he with rfl | rfl
      · show "last_online".toList ∉ kvKeys "DEVICE:AA,online=1".toList
        decide
      · show "last_online".toList ∉ kvKeys "DEVICE:AA,online=0".toList
        decide)
  exact h.1

end OscBuzzer
